import Mathlib

/-!
Verification of the qubes-app-linux-pdf-converter client/server pipeline
(src/qubespdfconverter/client.py and src/qubespdfconverter/server.py),
as a shallow embedding in Lean 4.

The transport stream is modelled as a list of bytes (`List Nat`, each < 256).
Python exceptions become explicit error values; the asyncio pipelines are
embedded as deterministic state-passing functions (the queues involved are
FIFO, so serialised execution yields the same observable order).
-/

/-! ## Constants (client.py lines 40-43) -/

def MAX_PAGES : Int := 10000

def MAX_IMG_WIDTH : Int := 10000

def MAX_IMG_HEIGHT : Int := 10000

def DEPTH : Int := 8

/-! ## Python string/int primitives used by the client

`recvline` does `(await proc.stdout.readline()).decode("ascii").rstrip()` and
`_dim` / `_pagenums` parse fields with Python `int()`.  We model:
  * `readline`: bytes up to and including the first 0x0A, or all remaining
    bytes at EOF;
  * ASCII decoding: fails iff some byte is >= 0x80;
  * `str.rstrip`: strips trailing whitespace characters;
  * `int(str)`: optional surrounding whitespace, optional single sign,
    decimal digits with single underscores allowed strictly between digits.
-/

/-- Whitespace characters recognised by Python `str.strip`/`int()` within the
ASCII range (input was decoded as ASCII, so only these can occur). -/
def isPySpace (c : Char) : Bool :=
  c = ' ' || c = '\t' || c = '\n' || c = '\x0d' || c = '\x0b' || c = '\x0c'

def isPyDigit (c : Char) : Bool :=
  '0' ≤ c && c ≤ '9'

def digitVal (c : Char) : Nat :=
  c.toNat - 48

/-- Digits of a Python int literal after the first digit: digits, with single
underscores allowed only between digits. -/
def pyDigitsAux : List Char → Nat → Option Nat
  | [], acc => some acc
  | '_' :: c :: cs, acc =>
      if isPyDigit c then pyDigitsAux cs (acc * 10 + digitVal c) else none
  | c :: cs, acc =>
      if isPyDigit c then pyDigitsAux cs (acc * 10 + digitVal c) else none

/-- A nonempty run of decimal digits (with `_` separators), as in Python
`int()`, value in ℕ. -/
def pyDigits : List Char → Option Nat
  | c :: cs => if isPyDigit c then pyDigitsAux cs (digitVal c) else none
  | [] => none

def pyStripLeft (cs : List Char) : List Char :=
  cs.dropWhile isPySpace

def pyStripRight (cs : List Char) : List Char :=
  (cs.reverse.dropWhile isPySpace).reverse

/-- Python `int(s)` on an ASCII string, as the client applies it to untrusted
fields: strips surrounding whitespace, accepts one optional sign, then a
digit run.  `none` models `ValueError`. -/
def pyInt (cs : List Char) : Option Int :=
  match pyStripRight (pyStripLeft cs) with
  | '+' :: rest => (pyDigits rest).map Int.ofNat
  | '-' :: rest => (pyDigits rest).map (fun n => -(n : Int))
  | rest => (pyDigits rest).map Int.ofNat

/-- `bytes.readline`: the bytes up to and including the first newline (0x0A),
or all remaining bytes at EOF; also returns the unconsumed stream. -/
def readline : List Nat → List Nat × List Nat
  | [] => ([], [])
  | b :: rest =>
      if b = 10 then ([10], rest)
      else
        let (ln, unread) := readline rest
        (b :: ln, unread)

/-- `str.rstrip()` applied after ASCII decoding. -/
def pyRstrip (cs : List Char) : List Char :=
  pyStripRight cs

inductive LineErr where
  | eof
  | unicode
deriving DecidableEq, Repr

/-- `recvline` (client.py lines 181-186): read one line, raise `EOFError` on
empty data, decode ASCII (`UnicodeError` iff a byte ≥ 0x80), rstrip.
Returns the decoded line (or error) together with the unconsumed stream. -/
def recvlineR (stream : List Nat) : Except LineErr (List Char) × List Nat :=
  let (raw, unread) := readline stream
  if raw = [] then (.error .eof, unread)
  else if raw.any (fun b => 128 ≤ b) then (.error .unicode, unread)
  else (.ok (pyRstrip (raw.map Char.ofNat)), unread)

/-! ## Client-side dimension handling (client.py lines 55-60, 283-296) -/

structure ImageDimensions where
  width : Int
  height : Int
  size : Int
  depth : Int := DEPTH
deriving DecidableEq, Repr

inductive ClientError where
  | qrexec (msg : String)
  | dimension (msg : String)
  | page (msg : String)
  | representation (msg : String)
deriving DecidableEq, Repr

/-- Python `line.split(" ", 1)`: split on the first space only.  `none` means
no space was found (so unpacking into two variables raises `ValueError`). -/
def splitOnce : List Char → Option (List Char × List Char)
  | [] => none
  | ' ' :: rest => some ([], rest)
  | c :: rest => (splitOnce rest).map (fun p => (c :: p.1, p.2))

/-- The parse step of `Representation._dim` (client.py line 288):
`untrusted_w, untrusted_h = map(int, line.split(" ", 1))`.
`none` models the `ValueError` from unpacking or from `int()`. -/
def dimParse (line : List Char) : Option (Int × Int) :=
  match splitOnce line with
  | none => none
  | some (ws, hs) =>
      match pyInt ws, pyInt hs with
      | some w, some h => some (w, h)
      | _, _ => none

def dimsInBounds (w h : Int) : Prop :=
  1 ≤ w ∧ w ≤ MAX_IMG_WIDTH ∧ 1 ≤ h ∧ h ≤ MAX_IMG_HEIGHT

instance (w h : Int) : Decidable (dimsInBounds w h) := by
  unfold dimsInBounds; infer_instance

/-- The validation step of `Representation._dim` (client.py lines 290-296):
accept iff `1 <= w <= MAX_IMG_WIDTH and 1 <= h <= MAX_IMG_HEIGHT`, computing
`size = width * height * 3`; otherwise `raise ValueError` (`none`). -/
def dimCheck (w h : Int) : Option ImageDimensions :=
  if dimsInBounds w h then
    some { width := w, height := h, size := w * h * 3 }
  else
    none

/-- `Representation._dim` over the byte stream: recvline, parse, validate.
The second component is the unconsumed stream.  Error cases keep Python's
exception classes apart: `eof` is `EOFError`, everything else (decode
failure, parse failure, bounds failure) is `ValueError`/`UnicodeError`. -/
inductive DimRaw where
  | eofError
  | valueError
deriving DecidableEq, Repr

def dimR (stream : List Nat) : Except DimRaw ImageDimensions × List Nat :=
  match recvlineR stream with
  | (.error .eof, unread) => (.error .eofError, unread)
  | (.error .unicode, unread) => (.error .valueError, unread)
  | (.ok line, unread) =>
      match dimParse line with
      | none => (.error .valueError, unread)
      | some (w, h) =>
          match dimCheck w h with
          | none => (.error .valueError, unread)
          | some d => (.ok d, unread)

/-- `recv_b` (client.py lines 176-178): `readexactly(size)`; `none` models
`asyncio.IncompleteReadError` on a short read. -/
def recv_b (stream : List Nat) (size : Nat) : Option (List Nat × List Nat) :=
  if stream.length < size then none
  else some (stream.take size, stream.drop size)

/-- Outcome of `Representation.receive`: on success the dimensions, the
payload persisted to the scratch `.rgb` file, and the unconsumed stream; on
error the raised exception and the stream position at the raise. -/
inductive RecvOutcome where
  | ok (d : ImageDimensions) (payload : List Nat) (unread : List Nat)
  | err (e : ClientError) (unread : List Nat)
deriving DecidableEq, Repr

/-- The payload bytes persisted by `receive`, if any (the
`self.initial.write_bytes(data)` call only runs on the success path). -/
def RecvOutcome.persisted : RecvOutcome → Option (List Nat)
  | .ok _ payload _ => some payload
  | .err _ _ => none

/-- `Representation.receive` (client.py lines 259-280): obtain dimensions
(`EOFError` → `QrexecError`, `UnicodeError`/`ValueError` → `DimensionError`),
then read exactly `dim.size` payload bytes (`IncompleteReadError` →
`QrexecError`), then persist the payload. -/
def Representation.receive (stream : List Nat) : RecvOutcome :=
  match dimR stream with
  | (.error .eofError, unread) =>
      .err (.qrexec "Failed to receive image dimensions") unread
  | (.error .valueError, unread) =>
      .err (.dimension "Invalid image dimensions") unread
  | (.ok d, unread) =>
      match recv_b unread d.size.toNat with
      | none => .err (.qrexec "Received inconsistent number of bytes") unread
      | some (payload, unread2) => .ok d payload unread2

/-! ## Client pagecount handling (client.py lines 560-572) -/

/-- `Job._pagenums`: recvline + `int()`, with `AttributeError`, `EOFError`,
`UnicodeError` and `ValueError` all mapped to `QrexecError`; then the bounds
check `1 <= untrusted_pagenums <= MAX_PAGES`, whose failure raises
`PageError`. -/
def pagenumsR (stream : List Nat) :
    Except ClientError Int × List Nat :=
  match recvlineR stream with
  | (.error _, unread) =>
      (.error (.qrexec "Failed to receive page count"), unread)
  | (.ok line, unread) =>
      match pyInt line with
      | none => (.error (.qrexec "Failed to receive page count"), unread)
      | some p =>
          if 1 ≤ p ∧ p ≤ MAX_PAGES then (.ok p, unread)
          else (.error (.page "Invalid page count"), unread)

/-! ## Wire grammar of a dimension line, from the spec

Modelled from the spec: "All integers are ASCII decimal, no leading zeros
required, no sign. Dim line uses exactly one ASCII space. Newlines are
`\x0A`."  This is the spec-side grammar, to be compared with the client's
actual parser above. -/

def isDigitByte (b : Nat) : Bool :=
  48 ≤ b && b ≤ 57

/-- Spec wire grammar for one dimension line:
`<digits> <digits>\x0A` with nonempty digit runs, one 0x20 space, one 0x0A. -/
def isWireDimLine (bs : List Nat) : Bool :=
  let d1 := bs.takeWhile isDigitByte
  let r1 := bs.dropWhile isDigitByte
  match r1 with
  | 32 :: r2 =>
      let d2 := r2.takeWhile isDigitByte
      let r3 := r2.dropWhile isDigitByte
      !d1.isEmpty && !d2.isEmpty && r3 = [10]
  | _ => false

/-- The client's end-to-end handling of one dimension line: recvline then
parse then validate (the composition a server-supplied line goes through). -/
def clientDimLine (stream : List Nat) : Option ImageDimensions :=
  match dimR stream with
  | (.ok d, _) => some d
  | (.error _, _) => none

/-! ## Client per-page pipeline (client.py lines 227-256, 352-374)

`BaseFile._publish` receives pages 1..pagenums in order; for each page it
spawns `rep.convert(bar)`, whose argv (client.py lines 232-241) embeds the
received dimensions.  We record, in order, the dimensions handed to
`gm convert`; the pipeline stops at the first receive error. -/

/-- The `gm convert` argv built by `Representation.convert` for a page
(client.py lines 232-241). -/
def convertCmd (d : ImageDimensions) (page : Nat) : List String :=
  ["gm", "convert", "-size",
   toString d.width ++ "x" ++ toString d.height,
   "-depth", toString d.depth,
   "rgb:" ++ toString page ++ ".rgb",
   "png:" ++ toString page ++ ".png"]

structure PipelineResult where
  converted : List ImageDimensions
  outcome : Except ClientError Unit
  unread : List Nat
deriving Repr

/-- The receive half of `BaseFile._publish`: pages `page..pagenums`, each one
a `Representation.receive` followed by spawning the conversion task with the
received dimensions.  Accumulates the dimensions passed to `gm convert`. -/
def clientPagesAux (pagenums : Nat) :
    Nat → List Nat → List ImageDimensions → PipelineResult
  | page, stream, acc =>
    if h : pagenums < page then
      { converted := acc, outcome := .ok (), unread := stream }
    else
      match Representation.receive stream with
      | .err e unread => { converted := acc, outcome := .error e, unread }
      | .ok d _ unread => clientPagesAux pagenums (page + 1) unread (acc ++ [d])
termination_by page stream acc => pagenums + 1 - page

def clientPages (pagenums : Nat) (stream : List Nat) : PipelineResult :=
  clientPagesAux pagenums 1 stream []

/-! ## Client PDF assembly (client.py lines 352-374 and 385-428)

`_publish` collects received page numbers in `pages` and, whenever
`page % self.batch.maxsize == 0 or page == self.pagenums`, waits for the
batch's conversions and calls `_save_reps(pages)`.  `_save_reps` opens the
batch's PNGs in `pages` order and saves them to `self.pdf`, appending iff
the file already exists (`append=self.pdf.exists()`).  The PDF is modelled
as the list of page indices it contains, in order. -/

/-- `BaseFile._save_reps`: append the batch's pages, in list order, to the
(possibly existing) PDF. -/
def saveReps (pdf : List Nat) (pages : List Nat) : List Nat :=
  pdf ++ pages

/-- The batching loop of `BaseFile._publish` (client.py lines 356-374),
restricted to its save behaviour: for `page` from `page₀` to `pagenums`,
append `page` to the pending batch; flush the batch to the PDF when
`page % batchSize == 0 or page == pagenums`. -/
def publishSaves (pagenums batchSize : Nat) :
    Nat → List Nat → List Nat → List Nat
  | page, pages, pdf =>
    if h : pagenums < page then pdf
    else
      let pages1 := pages ++ [page]
      if page % batchSize = 0 ∨ page = pagenums then
        publishSaves pagenums batchSize (page + 1) [] (saveReps pdf pages1)
      else
        publishSaves pagenums batchSize (page + 1) pages1 pdf
termination_by page pages pdf => pagenums + 1 - page

/-- The PDF produced by a successful run of `_publish` on a `pagenums`-page
document with batch size `batchSize`. -/
def finalPdf (pagenums batchSize : Nat) : List Nat :=
  publishSaves pagenums batchSize 1 [] []

/-! ## Job state machine (client.py lines 455-543)

`Job._start` runs, in order: `BaseFile.sanitize` (which fully writes the
trusted PDF at its temporary path), `wait_proc` on the transport child,
`shutil.move` of the temporary PDF next to the input, then — only in this
final step — `self.path.unlink()` (in-place mode) or `self._archive(archive)`
(a `Path.rename` into the archive directory).  `Job.run` catches `OSError`,
`PageError`, `QrexecError`, `DimensionError`, `RepresentationError` and
`subprocess.CalledProcessError` (marking the job FAILED) and
`asyncio.CancelledError` (marking it CANCELLED); the `TemporaryDirectory`
context removes the scratch directory — including the temporary PDF — on
every exit path.  Failures are injected at each of the four await points. -/

structure World where
  originalAtPath : Bool
  tmpPdf : Bool
  trustedAtFinal : Bool
  originalInArchive : Bool
deriving DecidableEq, Repr, Fintype

inductive JobStatus where
  | done
  | fail
  | cancelled
deriving DecidableEq, Repr, Fintype

/-- The four fallible steps of `Job._start`, in program order. -/
inductive FailPoint where
  | sanitize
  | waitTransport
  | movePdf
  | finalize
deriving DecidableEq, Repr, Fintype

/-- Filesystem effect of each completed step of `Job._start`.  `sanitize`
finishes writing the temporary trusted PDF; `movePdf` moves it to the final
path next to the input; `finalize` removes the original (unlink in in-place
mode, rename into the archive otherwise).  `rename`/`unlink` are atomic, so
a failing `finalize` leaves the original in place. -/
def stepWorld (inPlace : Bool) : FailPoint → World → World
  | .sanitize, w => { w with tmpPdf := true }
  | .waitTransport, w => w
  | .movePdf, w => { w with tmpPdf := false, trustedAtFinal := true }
  | .finalize, w =>
      if inPlace then { w with originalAtPath := false }
      else { w with originalAtPath := false, originalInArchive := true }

/-- The `TemporaryDirectory` context exit in `Job.run` (client.py line 462):
the scratch directory and any temporary PDF inside it are removed. -/
def cleanupTmp (w : World) : World :=
  { w with tmpPdf := false }

def initialWorld : World :=
  { originalAtPath := true, tmpPdf := false
    trustedAtFinal := false, originalInArchive := false }

/-- `Job._start` with a failure injected at `failAt` (`none`: all steps
succeed).  Returns whether the run succeeded together with the world state
when `Job.run`'s exception handling takes over. -/
def startSteps (inPlace : Bool) (failAt : Option FailPoint) : Bool × World :=
  if failAt = some .sanitize then (false, initialWorld)
  else
    let w1 := stepWorld inPlace .sanitize initialWorld
    if failAt = some .waitTransport then (false, w1)
    else
      let w2 := stepWorld inPlace .waitTransport w1
      if failAt = some .movePdf then (false, w2)
      else
        let w3 := stepWorld inPlace .movePdf w2
        if failAt = some .finalize then (false, w3)
        else (true, stepWorld inPlace .finalize w3)

/-- `Job.run`: run `_start`, classify the outcome (DONE, or FAILED /
CANCELLED according to the exception kind), and tear down the scratch
directory. -/
def jobRun (inPlace : Bool) (failAt : Option FailPoint) (asCancel : Bool) :
    JobStatus × World :=
  let r := startSteps inPlace failAt
  (if r.1 then .done else if asCancel then .cancelled else .fail,
   cleanupTmp r.2)

/-! ## Server emit pipeline (server.py lines 325, 355-398)

`BaseFile.sanitize` sends the page count (`send(self.pagenums)`, a `print`
appending a newline), then `_publish` enqueues, for pages 1..pagenums in
order, one conversion task per page into the FIFO `asyncio.Queue`, and
`_consume` dequeues entries in FIFO order, emitting `send(rep.dim)` (the
dimension string plus a newline) followed by `send_b(rgb_data)` for each.
Nothing else is written to stdout.  The queue is FIFO and `_consume` awaits
each entry's task before emitting, so the serialised model below produces
the same stdout byte sequence as any interleaving. -/

/-- ASCII decimal digits of `n` (what Python `print(n)` writes for an int). -/
def asciiDigits (n : Nat) : List Nat :=
  (toString n).data.map Char.toNat

/-- Server `send` (server.py lines 86-88): `print(data, flush=True)` — the
payload bytes followed by one newline. -/
def sendLine (payload : List Nat) : List Nat :=
  payload ++ [10]

/-- Server `_publish` (server.py lines 355-372): the FIFO queue contents it
produces, in put order — one entry per page, pages 1..pagenums. -/
def serverPublish (pagenums : Nat) : List Nat :=
  List.range' 1 pagenums

/-- Server `_consume` (server.py lines 375-398): dequeue entries in FIFO
order; per entry emit the dimension line (`send`) then the RGB bytes
(`send_b`). -/
def serverConsume (queue : List Nat) (dim : Nat → List Nat)
    (rgb : Nat → List Nat) : List Nat :=
  match queue with
  | [] => []
  | p :: rest => sendLine (dim p) ++ rgb p ++ serverConsume rest dim rgb

/-- Everything `BaseFile.sanitize` writes to stdout on a successful run:
the page count line, then the `_consume` output over the queue `_publish`
filled. -/
def serverStdout (pagenums : Nat) (dim : Nat → List Nat)
    (rgb : Nat → List Nat) : List Nat :=
  sendLine (asciiDigits pagenums) ++
    serverConsume (serverPublish pagenums) dim rgb

/-! ## `Job._setup` task interleaving (client.py lines 495-512, 546-557)

`_setup` creates `send_task = create_task(self._send())` and
`page_task = create_task(self._pagenums())` and gathers both.  The asyncio
event loop runs ready tasks in creation order; a task runs until its next
suspending `await`.  `_send` first awaits `run_in_executor(None,
self.path.read_bytes)` (suspends), then writes the data and awaits `drain()`
(an await point), then calls `write_eof()`.  `_pagenums` calls `recvline`,
whose `await proc.stdout.readline()` begins the read immediately and blocks
until the server replies — which the server does only after seeing EOF on
its stdin, i.e. after the client's `write_eof()`.  The model below is a
small round-robin cooperative scheduler over these two scripts. -/

inductive Ev where
  | readBegin
  | sendDoc
  | closeWrite
  | readDone
deriving DecidableEq, Repr

inductive SStep where
  | emit (e : Ev)
  | yieldOnce
  | waitFor (e : Ev)
deriving DecidableEq, Repr

/-- Run one task until it ends, yields, or blocks; returns the extended
trace and the task's remaining steps (none when finished). -/
def runUntilSuspend : List SStep → List Ev → List Ev × Option (List SStep)
  | [], tr => (tr, none)
  | .emit e :: rest, tr => runUntilSuspend rest (tr ++ [e])
  | .yieldOnce :: rest, tr => (tr, some rest)
  | .waitFor e :: rest, tr =>
      if e ∈ tr then runUntilSuspend rest tr
      else (tr, some (.waitFor e :: rest))

/-- Round-robin cooperative scheduler (the asyncio ready queue), with fuel. -/
def sched : Nat → List (List SStep) → List Ev → List Ev
  | 0, _, tr => tr
  | _ + 1, [], tr => tr
  | fuel + 1, t :: ts, tr =>
      match runUntilSuspend t tr with
      | (tr1, none) => sched fuel ts tr1
      | (tr1, some t1) => sched fuel (ts ++ [t1]) tr1

/-- `Job._send` (client.py lines 546-557): await the executor reading the
file (suspends), write the document bytes and await `drain`, then
`write_eof()`. -/
def sendScript : List SStep :=
  [.yieldOnce, .emit .sendDoc, .yieldOnce, .emit .closeWrite]

/-- `Job._pagenums` (client.py lines 560-572), up to its read: `recvline`
starts `readline()` on the transport stdout at once, and the read can only
complete after the client has closed its write side (the server replies
only after EOF). -/
def pageScript : List SStep :=
  [.emit .readBegin, .waitFor .closeWrite, .emit .readDone]

/-- The event trace of `Job._setup`: both tasks created, `_send` first
(client.py lines 496-497), then run to completion. -/
def setupTrace : List Ev :=
  sched 8 [sendScript, pageScript] []

/-! ## Supervisor exit code (client.py lines 581-666)

`run` gathers the per-file job tasks with `return_exceptions=True`; a
successful job yields `None`, a failed or cancelled one an exception.
`completed = results.count(None)`; `run` returns
`completed != len(results)`.  `main` calls `sys.exit(run(...))` when file
arguments were given — `sys.exit(False)` is exit code 0, `sys.exit(True)`
is exit code 1 — and merely prints (exiting 0) when none were.  A job list
entry is `true` iff that file was sanitized successfully. -/

def runReturn (jobOk : List Bool) : Bool :=
  jobOk.count true ≠ jobOk.length

/-- The client tool's process exit code, as a function of the per-file
outcomes (`jobOk = []` models no input files). -/
def mainExit (jobOk : List Bool) : Nat :=
  if jobOk.length ≠ 0 then (if runReturn jobOk then 1 else 0) else 0

deriving instance DecidableEq for Except

/-! ## Helper lemmas -/

theorem dimCheck_some {w h : Int} {d : ImageDimensions}
    (hc : dimCheck w h = some d) :
    dimsInBounds w h ∧
      d = { width := w, height := h, size := w * h * 3, depth := DEPTH } := by
  unfold dimCheck at hc
  split at hc
  next hb =>
    simp only [Option.some.injEq] at hc
    exact ⟨hb, hc.symm⟩
  next => cases hc

theorem dimCheck_none {w h : Int} (hb : ¬ dimsInBounds w h) :
    dimCheck w h = none := by
  unfold dimCheck
  rw [if_neg hb]

theorem dimR_eq_of_line {s : List Nat} {line : List Char} {u : List Nat}
    (hline : recvlineR s = (.ok line, u)) :
    dimR s =
      match dimParse line with
      | none => (.error .valueError, u)
      | some (w, h) =>
          match dimCheck w h with
          | none => (.error .valueError, u)
          | some d => (.ok d, u) := by
  unfold dimR
  rw [hline]

theorem dimR_ok {s : List Nat} {d : ImageDimensions} {u : List Nat}
    (h : dimR s = (.ok d, u)) :
    ∃ line w hh, recvlineR s = (.ok line, u) ∧ dimParse line = some (w, hh) ∧
      dimCheck w hh = some d := by
  rcases hr : recvlineR s with ⟨e, u0⟩
  cases e with
  | error le =>
      cases le <;> (unfold dimR at h; rw [hr] at h; cases h)
  | ok line =>
      have h2 := h
      unfold dimR at h2
      rw [hr] at h2
      dsimp only at h2
      rcases hp : dimParse line with _ | ⟨w, hh⟩
      · rw [hp] at h2; cases h2
      · rw [hp] at h2
        dsimp only at h2
        rcases hc : dimCheck w hh with _ | d0
        · rw [hc] at h2; cases h2
        · rw [hc] at h2
          simp only [Prod.mk.injEq, Except.ok.injEq] at h2
          obtain ⟨rfl, rfl⟩ := h2
          exact ⟨line, w, hh, rfl, hp, hc⟩

theorem receive_of_dimR_ok {s : List Nat} {d : ImageDimensions} {u : List Nat}
    (h : dimR s = (.ok d, u)) :
    Representation.receive s =
      match recv_b u d.size.toNat with
      | none => .err (.qrexec "Received inconsistent number of bytes") u
      | some (payload, u2) => .ok d payload u2 := by
  unfold Representation.receive
  rw [h]

theorem receive_of_dimR_value {s u : List Nat}
    (h : dimR s = (.error .valueError, u)) :
    Representation.receive s = .err (.dimension "Invalid image dimensions") u := by
  unfold Representation.receive
  rw [h]

theorem receive_of_dimR_eof {s u : List Nat}
    (h : dimR s = (.error .eofError, u)) :
    Representation.receive s =
      .err (.qrexec "Failed to receive image dimensions") u := by
  unfold Representation.receive
  rw [h]

theorem receive_ok_dims {s : List Nat} {d : ImageDimensions}
    {payload u : List Nat}
    (h : Representation.receive s = .ok d payload u) :
    dimsInBounds d.width d.height ∧ d.depth = DEPTH ∧
      d.size = d.width * d.height * 3 := by
  rcases hr : dimR s with ⟨e, u0⟩
  cases e with
  | error de =>
      cases de
      · rw [receive_of_dimR_eof hr] at h; cases h
      · rw [receive_of_dimR_value hr] at h; cases h
  | ok d0 =>
      rw [receive_of_dimR_ok hr] at h
      rcases hb : recv_b u0 d0.size.toNat with _ | ⟨payload0, u2⟩
      · rw [hb] at h; cases h
      · rw [hb] at h
        simp only [RecvOutcome.ok.injEq] at h
        obtain ⟨rfl, rfl, rfl⟩ := h
        obtain ⟨line, w, hh, _, _, hc⟩ := dimR_ok hr
        obtain ⟨hbnd, rfl⟩ := dimCheck_some hc
        exact ⟨hbnd, rfl, rfl⟩

theorem clientPagesAux_bounds (pagenums : Nat) :
    ∀ k page stream acc,
      pagenums + 1 - page ≤ k →
      (∀ d ∈ acc, dimsInBounds d.width d.height ∧ d.depth = DEPTH) →
      ∀ d ∈ (clientPagesAux pagenums page stream acc).converted,
        dimsInBounds d.width d.height ∧ d.depth = DEPTH := by
  intro k
  induction k with
  | zero =>
      intro page stream acc hk hacc d hd
      have hlt : pagenums < page := by omega
      unfold clientPagesAux at hd
      rw [dif_pos hlt] at hd
      exact hacc d hd
  | succ k ih =>
      intro page stream acc hk hacc d hd
      unfold clientPagesAux at hd
      by_cases hlt : pagenums < page
      · rw [dif_pos hlt] at hd
        exact hacc d hd
      · rw [dif_neg hlt] at hd
        rcases hrec : Representation.receive stream with ⟨d0, p0, u0⟩ | ⟨e0, u0⟩
        · rw [hrec] at hd
          refine ih (page + 1) u0 (acc ++ [d0]) (by omega) ?_ d hd
          intro d1 hd1
          rcases List.mem_append.mp hd1 with h1 | h2
          · exact hacc d1 h1
          · have hrec2 := receive_ok_dims hrec
            rw [List.mem_singleton.mp h2]
            exact ⟨hrec2.1, hrec2.2.1⟩
        · rw [hrec] at hd
          exact hacc d hd

/-! ## Claim theorems -/

/-- C1: for every dimension line parsed into two integers `(w, h)`, the
client accepts the pair iff `1 ≤ w ≤ MAX_IMG_WIDTH` and
`1 ≤ h ≤ MAX_IMG_HEIGHT` (with depth fixed at 8); on a pair outside these
bounds `Representation.receive` raises `DimensionError` with the stream
after the line untouched (no payload byte read), and no `gm convert` task is
ever spawned with out-of-bounds dimensions. -/
theorem c1_dimension_gate (stream : List Nat) (line : List Char)
    (unread : List Nat) (w h : Int)
    (hline : recvlineR stream = (.ok line, unread))
    (hparse : dimParse line = some (w, h)) :
    ((dimR stream).1 =
        .ok { width := w, height := h, size := w * h * 3, depth := 8 } ↔
      dimsInBounds w h) ∧
    (¬ dimsInBounds w h →
      Representation.receive stream =
        .err (.dimension "Invalid image dimensions") unread) ∧
    (∀ pagenums s, ∀ d ∈ (clientPages pagenums s).converted,
      dimsInBounds d.width d.height ∧ d.depth = DEPTH) := by
  have hd := dimR_eq_of_line hline
  rw [hparse] at hd
  dsimp only at hd
  refine ⟨?_, ?_, ?_⟩
  · constructor
    · intro hok
      by_contra hb
      rw [dimCheck_none hb] at hd
      rw [hd] at hok
      cases hok
    · intro hb
      have hc : dimCheck w h =
          some { width := w, height := h, size := w * h * 3, depth := 8 } := by
        unfold dimCheck
        rw [if_pos hb]
        rfl
      rw [hc] at hd
      dsimp only at hd
      rw [hd]
  · intro hb
    rw [dimCheck_none hb] at hd
    dsimp only at hd
    exact receive_of_dimR_value hd
  · intro pagenums s d hdmem
    unfold clientPages at hdmem
    exact clientPagesAux_bounds pagenums (pagenums + 1) 1 s [] (by omega)
      (by simp) d hdmem

theorem c1_dimension_gate_witness :
    Representation.receive [50, 48, 48, 48, 48, 32, 50, 48, 48, 48, 48, 10] =
      .err (.dimension "Invalid image dimensions") [] :=
  (c1_dimension_gate [50, 48, 48, 48, 48, 32, 50, 48, 48, 48, 48, 10]
      ['2', '0', '0', '0', '0', ' ', '2', '0', '0', '0', '0'] [] 20000 20000
      (by decide) (by decide)).2.1 (by decide)

/-- C4: for every accepted dimension pair `(w, h)` the client computes the
payload size as exactly `w*h*3` bytes, at most 3×10^8, and reads exactly
that many bytes from the stream; on a short stream it raises the fatal
receive error and persists no payload. -/
theorem c4_payload_exact (stream : List Nat) (line : List Char)
    (unread : List Nat) (w h : Int) (d : ImageDimensions)
    (hline : recvlineR stream = (.ok line, unread))
    (hparse : dimParse line = some (w, h))
    (hchk : dimCheck w h = some d) :
    (d.size = w * h * 3 ∧ d.size ≤ 300000000) ∧
    (d.size.toNat ≤ unread.length →
      Representation.receive stream =
        .ok d (unread.take d.size.toNat) (unread.drop d.size.toNat) ∧
      (unread.take d.size.toNat).length = d.size.toNat) ∧
    (unread.length < d.size.toNat →
      Representation.receive stream =
        .err (.qrexec "Received inconsistent number of bytes") unread ∧
      (Representation.receive stream).persisted = none) := by
  obtain ⟨hb, rfl⟩ := dimCheck_some hchk
  have hdim : dimR stream =
      (.ok { width := w, height := h, size := w * h * 3, depth := DEPTH },
       unread) := by
    have hd := dimR_eq_of_line hline
    rw [hparse] at hd
    dsimp only at hd
    rw [hchk] at hd
    dsimp only at hd
    exact hd
  have hw1 : (1 : Int) ≤ w := hb.1
  have hw2 : w ≤ 10000 := hb.2.1
  have hh1 : (1 : Int) ≤ h := hb.2.2.1
  have hh2 : h ≤ 10000 := hb.2.2.2
  have hwh : w * h ≤ 10000 * 10000 :=
    mul_le_mul hw2 hh2 (by linarith) (by linarith)
  refine ⟨⟨rfl, by show w * h * 3 ≤ 300000000; linarith⟩, ?_, ?_⟩
  · intro hle
    have hrb : recv_b unread
        ({ width := w, height := h, size := w * h * 3,
           depth := DEPTH } : ImageDimensions).size.toNat =
        some (unread.take (w * h * 3).toNat, unread.drop (w * h * 3).toNat) := by
      unfold recv_b
      rw [if_neg (not_lt.mpr hle)]
    rw [receive_of_dimR_ok hdim, hrb]
    refine ⟨rfl, ?_⟩
    have hle2 : (w * h * 3).toNat ≤ unread.length := hle
    dsimp only
    rw [List.length_take]
    exact Nat.min_eq_left hle2
  · intro hlt
    have hrb : recv_b unread
        ({ width := w, height := h, size := w * h * 3,
           depth := DEPTH } : ImageDimensions).size.toNat = none := by
      unfold recv_b
      rw [if_pos hlt]
    have hrec : Representation.receive stream =
        .err (.qrexec "Received inconsistent number of bytes") unread := by
      rw [receive_of_dimR_ok hdim, hrb]
    exact ⟨hrec, by rw [hrec]; rfl⟩

theorem c4_payload_exact_witness :
    Representation.receive [49, 32, 50, 10, 7, 7, 7, 7, 7, 7] =
      .ok { width := 1, height := 2, size := 6, depth := 8 }
        ([(7 : Nat), 7, 7, 7, 7, 7].take
          ({ width := 1, height := 2, size := 6, depth := 8 } :
            ImageDimensions).size.toNat)
        ([(7 : Nat), 7, 7, 7, 7, 7].drop
          ({ width := 1, height := 2, size := 6, depth := 8 } :
            ImageDimensions).size.toNat) :=
  ((c4_payload_exact [49, 32, 50, 10, 7, 7, 7, 7, 7, 7] ['1', ' ', '2']
      [7, 7, 7, 7, 7, 7] 1 2 { width := 1, height := 2, size := 6, depth := 8 }
      (by decide) (by decide) (by decide)).2.1 (by decide)).1

/-- C5 counterexample: the pagecount line `abc\x0A` is non-integer, yet
`Job._pagenums` raises `QrexecError` ("Failed to receive page count"), not
`PageError` — the `ValueError` from `int()` is caught by the clause that
precedes the bounds check. -/
theorem c5_counterexample :
    (pagenumsR [97, 98, 99, 10]).1 =
      Except.error (ClientError.qrexec "Failed to receive page count") ∧
    (pagenumsR [97, 98, 99, 10]).1 ≠
      Except.error (ClientError.page "Invalid page count") := by
  constructor
  · rfl
  · intro hc
    cases hc

/-- C5 (amended): for a pagecount line that parses as an integer `p`, the
client accepts `p` iff `1 ≤ p ≤ MAX_PAGES`, and raises `PageError` when the
parsed integer is out of range; a non-integer pagecount line instead raises
`QrexecError`.  All are fatal for the file. -/
theorem c5_pagecount (stream : List Nat) (line : List Char)
    (unread : List Nat) (p : Int)
    (hline : recvlineR stream = (.ok line, unread))
    (hparse : pyInt line = some p) :
    ((pagenumsR stream).1 = .ok p ↔ 1 ≤ p ∧ p ≤ MAX_PAGES) ∧
    (¬ (1 ≤ p ∧ p ≤ MAX_PAGES) →
      (pagenumsR stream).1 = .error (.page "Invalid page count")) ∧
    (∀ s2 l2 u2, recvlineR s2 = (.ok l2, u2) → pyInt l2 = none →
      (pagenumsR s2).1 = .error (.qrexec "Failed to receive page count")) := by
  have hpr : pagenumsR stream =
      if 1 ≤ p ∧ p ≤ MAX_PAGES then (.ok p, unread)
      else (.error (.page "Invalid page count"), unread) := by
    unfold pagenumsR
    rw [hline]
    dsimp only
    rw [hparse]
  refine ⟨?_, ?_, ?_⟩
  · by_cases hb : 1 ≤ p ∧ p ≤ MAX_PAGES
    · rw [hpr, if_pos hb]
      simp [hb]
    · rw [hpr, if_neg hb]
      simp [hb]
  · intro hb
    rw [hpr, if_neg hb]
  · intro s2 l2 u2 hline2 hparse2
    unfold pagenumsR
    rw [hline2]
    dsimp only
    rw [hparse2]

theorem c5_pagecount_witness :
    (pagenumsR [53, 10]).1 = Except.ok 5 :=
  ((c5_pagecount [53, 10] ['5'] [] 5 (by decide) (by decide)).1).mpr (by decide)

/-- C6 counterexample: the malformed dimension line `12\x0A` (not two
integers) makes the client raise `DimensionError` — the exception class the
code reserves for invalid dimensions — while an EOF in place of the line
raises `QrexecError`; the two are distinct errors and neither is a dedicated
receive-error kind grouping all three malformed cases. -/
theorem c6_counterexample :
    Representation.receive [49, 50, 10] =
      .err (.dimension "Invalid image dimensions") [] ∧
    Representation.receive [] =
      .err (.qrexec "Failed to receive image dimensions") [] ∧
    ClientError.dimension "Invalid image dimensions" ≠
      ClientError.qrexec "Failed to receive image dimensions" := by
  refine ⟨rfl, rfl, ?_⟩
  intro hc
  cases hc

/-- C6 (amended): for every dimension line whose content is malformed (not
two integers) or non-ASCII, the client raises `DimensionError`; when the
stream is at EOF it raises `QrexecError`.  Each case is an error, fatal for
the file. -/
theorem c6_malformed (stream : List Nat) :
    (∀ u, recvlineR stream = (.error .eof, u) →
      Representation.receive stream =
        .err (.qrexec "Failed to receive image dimensions") u) ∧
    (∀ u, recvlineR stream = (.error .unicode, u) →
      Representation.receive stream =
        .err (.dimension "Invalid image dimensions") u) ∧
    (∀ line u, recvlineR stream = (.ok line, u) → dimParse line = none →
      Representation.receive stream =
        .err (.dimension "Invalid image dimensions") u) := by
  refine ⟨?_, ?_, ?_⟩
  · intro u hline
    apply receive_of_dimR_eof
    unfold dimR
    rw [hline]
  · intro u hline
    apply receive_of_dimR_value
    unfold dimR
    rw [hline]
  · intro line u hline hparse
    apply receive_of_dimR_value
    have hd := dimR_eq_of_line hline
    rw [hparse] at hd
    exact hd

theorem c6_malformed_witness :
    Representation.receive [49, 50, 10] =
      .err (.dimension "Invalid image dimensions") [] :=
  (c6_malformed [49, 50, 10]).2.2 ['1', '2'] [] (by decide) (by decide)

/-- C10: dimension lines outside the spec's wire grammar (unsigned ASCII
decimals separated by one space, newline-terminated) can still be accepted
by the client's parser: a width with a leading `+`, or extra whitespace
before the newline, parses because the line is rstripped and fields go
through Python `int()`. -/
theorem c10_lax_dim_grammar :
    isWireDimLine [43, 50, 48, 32, 51, 48, 10] = false ∧
    clientDimLine [43, 50, 48, 32, 51, 48, 10] =
      some { width := 20, height := 30, size := 1800, depth := 8 } ∧
    isWireDimLine [50, 48, 32, 51, 48, 32, 10] = false ∧
    clientDimLine [50, 48, 32, 51, 48, 32, 10] =
      some { width := 20, height := 30, size := 1800, depth := 8 } := by
  refine ⟨rfl, ?_, rfl, ?_⟩ <;> rfl

theorem publishSaves_gt (pagenums batchSize page : Nat) (pages pdf : List Nat)
    (h : pagenums < page) :
    publishSaves pagenums batchSize page pages pdf = pdf := by
  unfold publishSaves
  rw [dif_pos h]

theorem publishSaves_spec (pagenums batchSize : Nat) :
    ∀ k page pages pdf, pagenums + 1 - page ≤ k → page ≤ pagenums →
      publishSaves pagenums batchSize page pages pdf =
        pdf ++ pages ++ List.range' page (pagenums + 1 - page) := by
  intro k
  induction k with
  | zero => intro page pages pdf hk h2; omega
  | succ k ih =>
      intro page pages pdf hk h2
      unfold publishSaves
      rw [dif_neg (by omega : ¬ pagenums < page)]
      have h3 : pagenums + 1 - page = (pagenums - page) + 1 := by omega
      by_cases hflush : page % batchSize = 0 ∨ page = pagenums
      · rw [if_pos hflush]
        by_cases hend : page = pagenums
        · rw [publishSaves_gt _ _ _ _ _ (by omega)]
          rw [h3, hend, Nat.sub_self, List.range'_succ]
          simp [saveReps]
        · have hlt : page < pagenums := by omega
          rw [ih (page + 1) [] (saveReps pdf (pages ++ [page])) (by omega)
            (by omega)]
          rw [h3, List.range'_succ]
          have h4 : pagenums + 1 - (page + 1) = pagenums - page := by omega
          rw [h4]
          simp [saveReps]
      · rw [if_neg hflush]
        have hne : page ≠ pagenums := fun hcon => hflush (Or.inr hcon)
        rw [ih (page + 1) (pages ++ [page]) pdf (by omega) (by omega)]
        rw [h3, List.range'_succ]
        have h4 : pagenums + 1 - (page + 1) = pagenums - page := by omega
        rw [h4]
        simp

/-- C3: for every successful run on a `pagenums`-page document, the batched
assembly of `BaseFile._publish` / `_save_reps` appends every batch to the
existing PDF so that the final PDF holds exactly the pages
`1, 2, ..., pagenums` in page-index order: its page list is
`List.range' 1 pagenums` and its page count is `pagenums`. -/
theorem c3_page_order (pagenums batchSize : Nat) (hB : 1 ≤ batchSize) :
    finalPdf pagenums batchSize = List.range' 1 pagenums ∧
    (finalPdf pagenums batchSize).length = pagenums := by
  have hmain : finalPdf pagenums batchSize = List.range' 1 pagenums := by
    unfold finalPdf
    rcases Nat.eq_zero_or_pos pagenums with h0 | hpos
    · rw [h0]
      rw [publishSaves_gt _ _ _ _ _ (by omega)]
      rfl
    · rw [publishSaves_spec pagenums batchSize (pagenums + 1) 1 [] []
        (by omega) hpos]
      simp
  refine ⟨hmain, ?_⟩
  rw [hmain]
  simp

theorem c3_page_order_witness :
    finalPdf 7 3 = List.range' 1 7 ∧ (finalPdf 7 3).length = 7 :=
  c3_page_order 7 3 (by decide)

/-- C2 counterexample: with archiving mode, a failure injected into the
final step of `Job._start` (the archive rename, after the trusted PDF was
already moved next to the input) yields a FAILED run in which the trusted
output exists at its final path — contradicting the claim that no trusted
output exists at the final path for every failed run. -/
theorem c2_counterexample :
    (jobRun false (some FailPoint.finalize) false).1 = JobStatus.fail ∧
    (jobRun false (some FailPoint.finalize) false).2.trustedAtFinal = true ∧
    (jobRun false (some FailPoint.finalize) false).2.originalAtPath = true := by
  decide

/-- C2 (amended): in every failed or cancelled run the original file remains
at its original path unmodified (and not in the archive) and no scratch PDF
remains; the trusted output is moreover absent from the final path provided
the failure occurred before the finalize step (sanitize, transport wait, or
move) — a failure inside finalize itself happens after the move, so the
trusted output then exists.  The original is removed (archived or unlinked)
only in states where the trusted PDF is already at its final path, and a
successful run ends with the trusted PDF in place and the original removed. -/
theorem c2_frame_effect :
    ∀ (inPlace : Bool) (failAt : Option FailPoint) (asCancel : Bool),
      ((jobRun inPlace failAt asCancel).1 ≠ JobStatus.done →
        (jobRun inPlace failAt asCancel).2.originalAtPath = true ∧
        (jobRun inPlace failAt asCancel).2.originalInArchive = false ∧
        (jobRun inPlace failAt asCancel).2.tmpPdf = false) ∧
      ((failAt = some FailPoint.sanitize ∨
        failAt = some FailPoint.waitTransport ∨
        failAt = some FailPoint.movePdf) →
        (jobRun inPlace failAt asCancel).2.trustedAtFinal = false) ∧
      ((jobRun inPlace failAt asCancel).2.originalAtPath = false →
        (jobRun inPlace failAt asCancel).2.trustedAtFinal = true) ∧
      ((jobRun inPlace failAt asCancel).1 = JobStatus.done →
        (jobRun inPlace failAt asCancel).2.trustedAtFinal = true ∧
        (jobRun inPlace failAt asCancel).2.originalAtPath = false ∧
        (jobRun inPlace failAt asCancel).2.tmpPdf = false) := by
  decide

theorem c2_frame_effect_witness :
    (jobRun false (some FailPoint.waitTransport) false).2.trustedAtFinal =
      false :=
  (c2_frame_effect false (some FailPoint.waitTransport) false).2.1
    (Or.inr (Or.inl rfl))

theorem serverConsume_eq (dim rgb : Nat → List Nat) :
    ∀ queue, serverConsume queue dim rgb =
      (queue.map (fun p => dim p ++ [10] ++ rgb p)).flatten := by
  intro queue
  induction queue with
  | nil => rfl
  | cons p rest ih =>
      unfold serverConsume
      rw [ih]
      simp [sendLine]

/-- C7: on a successful server run over an `pagenums`-page document, the
bytes written to stdout are exactly one pagecount line followed, for each
page `n = 1..pagenums` in increasing page order, by one dimension line and
that page's RGB bytes — and nothing else. -/
theorem c7_server_stdout (pagenums : Nat) (dim rgb : Nat → List Nat) :
    serverStdout pagenums dim rgb =
      (asciiDigits pagenums ++ [10]) ++
        ((List.range' 1 pagenums).map
          (fun p => dim p ++ [10] ++ rgb p)).flatten := by
  unfold serverStdout serverPublish sendLine
  rw [serverConsume_eq]

/-- C8 counterexample: in the event trace of `Job._setup`, the pagecount
read (`readline` inside `recvline`) is issued before the document bytes are
sent and before the write side is closed — the claim's ordering (read only
begins after send finishes and the write side is closed) is false. -/
theorem c8_counterexample :
    setupTrace = [Ev.readBegin, Ev.sendDoc, Ev.closeWrite, Ev.readDone] ∧
    setupTrace.indexOf Ev.readBegin < setupTrace.indexOf Ev.sendDoc ∧
    setupTrace.indexOf Ev.readBegin < setupTrace.indexOf Ev.closeWrite := by
  decide

/-- C8 (amended): `Job._setup` issues the pagecount read concurrently with
the upload; the client sends the document bytes and then closes its write
side without waiting on that read, and the pagecount read only completes
after the write side is closed (the server replies only after seeing EOF). -/
theorem c8_close_before_pagecount :
    Ev.closeWrite ∈ setupTrace ∧
    setupTrace.indexOf Ev.sendDoc < setupTrace.indexOf Ev.closeWrite ∧
    setupTrace.indexOf Ev.closeWrite < setupTrace.indexOf Ev.readDone := by
  decide

/-- C9: the client tool's process exit code is 0 iff every input file was
sanitized successfully (in particular when no input files were provided),
and 1 iff some file failed. -/
theorem c9_exit_code (jobOk : List Bool) :
    (mainExit jobOk = 0 ↔ ∀ b ∈ jobOk, b = true) ∧
    (mainExit jobOk = 1 ↔ ∃ b ∈ jobOk, b = false) ∧
    (jobOk = [] → mainExit jobOk = 0) := by
  have key : (jobOk.count true = jobOk.length) ↔ ∀ b ∈ jobOk, b = true := by
    rw [List.count_eq_length]
    constructor
    · intro hcnt b hb
      exact (hcnt b hb).symm
    · intro hall b hb
      exact (hall b hb).symm
  by_cases hc : jobOk.count true = jobOk.length
  · have hall : ∀ b ∈ jobOk, b = true := key.mp hc
    have hm : mainExit jobOk = 0 := by
      unfold mainExit runReturn
      rcases jobOk with _ | ⟨hd, tl⟩
      · simp
      · simp [hc]
    refine ⟨⟨fun _ => hall, fun _ => hm⟩, ?_, fun _ => hm⟩
    rw [hm]
    constructor
    · intro hcon
      exact absurd hcon (by norm_num)
    · rintro ⟨b, hb, hbf⟩
      rw [hall b hb] at hbf
      cases hbf
  · have hne : jobOk ≠ [] := by
      rintro rfl
      exact hc rfl
    have hm : mainExit jobOk = 1 := by
      unfold mainExit runReturn
      rw [if_pos (by simpa using fun hl => hne (List.length_eq_zero.mp hl))]
      simp [hc]
    have hex : ∃ b ∈ jobOk, b = false := by
      by_contra hno
      push_neg at hno
      refine hc (key.mpr fun b hb => ?_)
      rcases Bool.eq_false_or_eq_true b with ht | hf
      · exact ht
      · exact absurd hf (hno b hb)
    refine ⟨?_, ⟨fun _ => hex, fun _ => hm⟩, fun hcon => absurd hcon hne⟩
    rw [hm]
    constructor
    · intro hcon
      exact absurd hcon (by norm_num)
    · intro hall
      obtain ⟨b, hb, hbf⟩ := hex
      rw [hall b hb] at hbf
      cases hbf

theorem c9_exit_code_witness :
    mainExit [true, true] = 0 :=
  (c9_exit_code [true, true]).1.mpr (by decide)
